import Mathlib

/-!
Verification of the mod-host MIDI program-change router
(`load_single.py`, `load.py`, `listen3.py`, `modhost_cmd.py`).

The definitions below are a shallow embedding of the Python source:
pure helper functions become Lean functions, the router loop becomes an
explicit step function on a debounce state, raised exceptions become
`Except` values, and the external mod-host's bypass state is modelled as
a function from instance ids to booleans (per the control-protocol
interface: `bypass <id> <0|1>` sets instance `id`'s bypass flag).
-/

namespace Router

/-- A mod-host control command, as issued by the Python scripts
(`bypass`, `connect`, `disconnect`, `remove` are the ones the claims
are about). -/
inductive Cmd where
  | bypass (inst : Nat) (bypassOn : Bool)
  | connect (src dst : String)
  | disconnect (src dst : String)
  | remove (inst : Nat)
deriving DecidableEq, Repr

/-- A protocol error raised by `expect_zero` / `expect_nonnegative`
(Python `RuntimeError`), carrying the description of the failing
command (`what`) and the raw response text. -/
structure CmdError where
  what : String
  resp : String
deriving DecidableEq, Repr

/- ---------- Python string-primitive models ---------- -/

/-- ASCII whitespace as recognized by Python `str.strip` / `str.split`
(space, tab, newline, carriage return, vertical tab, form feed).
Python also strips some Unicode whitespace, which never occurs in
mod-host responses. -/
def pyIsSpace (c : Char) : Bool :=
  c = ' ' || c = '\t' || c = '\n' || c = '\x0d' || c = '\x0b' || c = '\x0c'

/-- Python `str.strip()`: drop leading and trailing whitespace. -/
def pyStrip (s : List Char) : List Char :=
  ((s.dropWhile pyIsSpace).reverse.dropWhile pyIsSpace).reverse

/-- Helper for `pySplit`: accumulates the current token (reversed). -/
def pySplitAux : List Char → List Char → List (List Char)
  | [], acc => if acc.isEmpty then [] else [acc.reverse]
  | c :: rest, acc =>
    if pyIsSpace c then
      if acc.isEmpty then pySplitAux rest [] else acc.reverse :: pySplitAux rest []
    else pySplitAux rest (c :: acc)

/-- Python `str.split()` with no argument: split on runs of whitespace,
discarding empty tokens. -/
def pySplit (s : List Char) : List (List Char) := pySplitAux s []

/-- Decimal value of a digit list (most significant first). -/
def digitsToNat (l : List Char) : Nat :=
  l.foldl (fun n c => n * 10 + (c.toNat - '0'.toNat)) 0

/-- Python `int(s)` on a whitespace-free token: an optional sign
followed by at least one ASCII digit; anything else raises
`ValueError`, modelled as `none`.  (Python additionally allows
underscore digit separators, which cannot occur in a `resp <int>`
response.) -/
def pyInt (s : List Char) : Option Int :=
  match s with
  | '-' :: rest =>
    if !rest.isEmpty && rest.all Char.isDigit then some (-(digitsToNat rest : Int)) else none
  | '+' :: rest =>
    if !rest.isEmpty && rest.all Char.isDigit then some (digitsToNat rest : Int) else none
  | l =>
    if !l.isEmpty && l.all Char.isDigit then some (digitsToNat l : Int) else none

/- ---------- Protocol response parsing (load_single.py 67-101) ---------- -/

/-- `parse_resp` (load_single.py 67-80 / load.py 65-78): strip the
response, delete NUL bytes, require the literal token `resp ` at the
front, split on whitespace, and parse the second token as an integer;
`none` on any failure. -/
def parse_resp (resp : String) : Option Int :=
  let r := (pyStrip resp.data).filter (fun c => c ≠ '\x00')
  if "resp ".data.isPrefixOf r then
    match pySplit r with
    | _ :: p1 :: _ => pyInt p1
    | _ => none
  else none

/-- `expect_zero` (load_single.py 95-101): success iff the parsed code
is exactly 0; otherwise raise carrying the command and raw response. -/
def expect_zero (resp : String) (what : String) : Except CmdError Unit :=
  match parse_resp resp with
  | some 0 => Except.ok ()
  | _ => Except.error ⟨what, resp⟩

/-- `expect_nonnegative` (load_single.py 83-92): unparsable responses
and negative codes raise; any non-negative code is returned. -/
def expect_nonnegative (resp : String) (what : String) : Except CmdError Int :=
  match parse_resp resp with
  | none => Except.error ⟨what, resp⟩
  | some code => if code < 0 then Except.error ⟨what, resp⟩ else Except.ok code

/- ---------- Port-shorthand expansion (load_single.py 143-152) ---------- -/

/-- Split a character list at the first `:`; `none` when there is no
colon (Python `":" in port` is false). -/
def splitOnFirstColon : List Char → Option (List Char × List Char)
  | [] => none
  | c :: rest =>
    if c = ':' then some ([], rest)
    else
      match splitOnFirstColon rest with
      | some (a, b) => some (c :: a, b)
      | none => none

/-- The Unicode code-point ranges of the characters accepted by Python
`str.isdigit()` — those with Numeric_Type Decimal or Digit — per
Unicode 14.0 as shipped with CPython 3.11: the ASCII digits,
superscripts and subscripts, circled, parenthesized, full-stop and
fullwidth digit forms, and the decimal digits of the other scripts. -/
def isdigitRanges : List (Nat × Nat) :=
  [(0x30, 0x39), (0xB2, 0xB3), (0xB9, 0xB9), (0x660, 0x669),
   (0x6F0, 0x6F9), (0x7C0, 0x7C9), (0x966, 0x96F), (0x9E6, 0x9EF),
   (0xA66, 0xA6F), (0xAE6, 0xAEF), (0xB66, 0xB6F), (0xBE6, 0xBEF),
   (0xC66, 0xC6F), (0xCE6, 0xCEF), (0xD66, 0xD6F), (0xDE6, 0xDEF),
   (0xE50, 0xE59), (0xED0, 0xED9), (0xF20, 0xF29), (0x1040, 0x1049),
   (0x1090, 0x1099), (0x1369, 0x1371), (0x17E0, 0x17E9), (0x1810, 0x1819),
   (0x1946, 0x194F), (0x19D0, 0x19DA), (0x1A80, 0x1A89), (0x1A90, 0x1A99),
   (0x1B50, 0x1B59), (0x1BB0, 0x1BB9), (0x1C40, 0x1C49), (0x1C50, 0x1C59),
   (0x2070, 0x2070), (0x2074, 0x2079), (0x2080, 0x2089), (0x2460, 0x2468),
   (0x2474, 0x247C), (0x2488, 0x2490), (0x24EA, 0x24EA), (0x24F5, 0x24FD),
   (0x24FF, 0x24FF), (0x2776, 0x277E), (0x2780, 0x2788), (0x278A, 0x2792),
   (0xA620, 0xA629), (0xA8D0, 0xA8D9), (0xA900, 0xA909), (0xA9D0, 0xA9D9),
   (0xA9F0, 0xA9F9), (0xAA50, 0xAA59), (0xABF0, 0xABF9), (0xFF10, 0xFF19),
   (0x104A0, 0x104A9), (0x10A40, 0x10A43), (0x10D30, 0x10D39),
   (0x10E60, 0x10E68), (0x11052, 0x1105A), (0x11066, 0x1106F),
   (0x110F0, 0x110F9), (0x11136, 0x1113F), (0x111D0, 0x111D9),
   (0x112F0, 0x112F9), (0x11450, 0x11459), (0x114D0, 0x114D9),
   (0x11650, 0x11659), (0x116C0, 0x116C9), (0x11730, 0x11739),
   (0x118E0, 0x118E9), (0x11950, 0x11959), (0x11C50, 0x11C59),
   (0x11D50, 0x11D59), (0x11DA0, 0x11DA9), (0x16A60, 0x16A69),
   (0x16AC0, 0x16AC9), (0x16B50, 0x16B59), (0x1D7CE, 0x1D7FF),
   (0x1E140, 0x1E149), (0x1E2F0, 0x1E2F9), (0x1E950, 0x1E959),
   (0x1F100, 0x1F10A), (0x1FBF0, 0x1FBF9)]

/-- A single character accepted by Python `str.isdigit()`: its code
point lies in one of the Numeric_Type Decimal-or-Digit ranges. -/
def pyIsDigitChar (c : Char) : Bool :=
  isdigitRanges.any fun r => r.1 ≤ c.toNat && c.toNat ≤ r.2

/-- Python `str.isdigit()`: nonempty and every character is a Unicode
digit. -/
def pyIsDigit (l : List Char) : Bool := !l.isEmpty && l.all pyIsDigitChar

/-- `expand_port` (load_single.py 143-152 / load.py 141-150): a port of
the form `<digits>:<rest>` becomes `effect_<digits>:<rest>`; anything
else (no colon, or a non-numeric prefix) passes through unchanged. -/
def expand_port (port : String) : String :=
  match splitOnFirstColon port.data with
  | some (left, right) =>
    if pyIsDigit left then String.mk ("effect_".data ++ left ++ ':' :: right)
    else port
  | none => port

/- ---------- MIDI decoding (decode_mido, load_single.py 182-187) ---------- -/

/-- The decoded shape of a MIDI message, as the router consumes it: a
Program Change (status nibble 0xC, channel in the low nibble, one data
byte), or any other successfully decoded channel-voice message (which
the router discards). -/
inductive MidiMsg where
  | program_change (channel program : Nat)
  | other_msg
deriving DecidableEq, Repr

/-- `decode_mido` (load_single.py 182-187), a model of
`mido.Message.from_bytes`: a channel-voice message is a status byte
0x80-0xEF followed by exactly the right number of ≤ 127 data bytes
(one for program change 0xC_ and channel aftertouch 0xD_, two for the
rest); anything malformed raises `ValueError`, modelled as `none`.
System messages (status ≥ 0xF0) are modelled as undecodable, which the
router treats identically to a decoded non-Program-Change message. -/
def decode_mido (data : List Nat) : Option MidiMsg :=
  match data with
  | [s, d] =>
    if 0xC0 ≤ s && s ≤ 0xCF && d ≤ 127 then some (MidiMsg.program_change (s % 16) d)
    else if 0xD0 ≤ s && s ≤ 0xDF && d ≤ 127 then some MidiMsg.other_msg
    else none
  | [s, d1, d2] =>
    if 0x80 ≤ s && s < 0xC0 && d1 ≤ 127 && d2 ≤ 127 then some MidiMsg.other_msg
    else if 0xE0 ≤ s && s ≤ 0xEF && d1 ≤ 127 && d2 ≤ 127 then some MidiMsg.other_msg
    else none
  | _ => none

/- ---------- Best-effort command loops ---------- -/

/-- A loop body of the form `try: send(cmd) except: log` applied to each
command in turn: the send's outcome is inspected, but whether it
succeeds or raises, the loop logs and continues with the next command.
Returns the list of commands actually issued. -/
def runCaught (send : Cmd → Except CmdError Unit) : List Cmd → List Cmd
  | [] => []
  | c :: rest =>
    match send c with
    | Except.ok _ => c :: runCaught send rest
    | Except.error _ => c :: runCaught send rest

/-- The commands issued by the variant-selection loop
(load_single.py 382-389 / load.py 403-412): for each group member,
`bypass inst 1` unless it is the selected one, which gets
`bypass inst 0`.  (`mod_bypass inst b` sends `bypass <inst> <b>`.) -/
def selectVariantCmds (group : List Nat) (x : Nat) : List Cmd :=
  group.map fun inst => Cmd.bypass inst (inst ≠ x)

/-- The variant-selection loop itself, with the per-member
`try/except` that catches failures of `mod_bypass` and continues:
returns the commands issued. -/
def selectVariant (send : Cmd → Except CmdError Unit) (group : List Nat) (x : Nat) :
    List Cmd :=
  runCaught send (selectVariantCmds group x)

/-- Host-side bypass state, per the control-protocol interface
(spec section 6): `bypass <id> <0|1>` sets instance `id`'s bypassed
flag; other commands leave bypass state alone. -/
def applyCmd (s : Nat → Bool) : Cmd → (Nat → Bool)
  | Cmd.bypass i b => fun j => if j = i then b else s j
  | _ => s

/-- Host-side bypass state after a sequence of successful commands. -/
def applyCmds (s : Nat → Bool) (cmds : List Cmd) : Nat → Bool :=
  cmds.foldl applyCmd s

/- ---------- The router loop (load_single.py 349-391) ---------- -/

/-- The body of the router loop after a Program Change has been decoded
and has passed the channel filter (load_single.py 369-391): debounce
against `last_prog`, then update `last_prog`, then check membership in
`piano_ids` and issue the selection commands.  Returns the new
`last_prog` and the commands issued. -/
def routerPC (pianoIds : List Nat) (last : Option Nat) (prog : Nat) :
    Option Nat × List Cmd :=
  if some prog = last then (last, [])
  else if prog ∈ pianoIds then (some prog, selectVariantCmds pianoIds prog)
  else (some prog, [])

/-- One iteration of the router loop on a raw event
(load_single.py 349-391): decode, discard non-Program-Change or
undecodable events, apply the optional channel filter
(`FILTER_CHANNEL`), then `routerPC`. -/
def routerStep (pianoIds : List Nat) (filt : Option Nat) (last : Option Nat)
    (data : List Nat) : Option Nat × List Cmd :=
  match decode_mido data with
  | none => (last, [])
  | some MidiMsg.other_msg => (last, [])
  | some (MidiMsg.program_change ch prog) =>
    match filt with
    | some f => if ch ≠ f then (last, []) else routerPC pianoIds last prog
    | none => routerPC pianoIds last prog

/-- The router loop over a whole trace of raw events: final `last_prog`
and the concatenation of all issued commands. -/
def runRouter (pianoIds : List Nat) (filt : Option Nat) :
    Option Nat → List (List Nat) → Option Nat × List Cmd
  | last, [] => (last, [])
  | last, e :: rest =>
    let s := routerStep pianoIds filt last e
    let r := runRouter pianoIds filt s.1 rest
    (r.1, s.2 ++ r.2)

/-- Whether a raw event decodes to a Program Change message at all. -/
def isPCmsg (data : List Nat) : Bool :=
  match decode_mido data with
  | some (MidiMsg.program_change _ _) => true
  | _ => false

/-- The program number a raw event delivers to the debounce logic:
`some p` iff it decodes to a Program Change with program `p` that
passes the channel filter. -/
def eventProg (filt : Option Nat) (data : List Nat) : Option Nat :=
  match decode_mido data with
  | some (MidiMsg.program_change ch prog) =>
    match filt with
    | some f => if ch ≠ f then none else some prog
    | none => some prog
  | _ => none

/- ---------- Real-time callback queue (load_single.py 156-180) ---------- -/

/-- `Queue.put_nowait` on a bounded queue: `none` models the raised
`queue.Full` when the queue already holds `maxsize` items. -/
def put_nowait (maxsize : Nat) (q : List α) (x : α) : Option (List α) :=
  if q.length < maxsize then some (q ++ [x]) else none

/-- The incoming half of the JACK process callback
(load_single.py 163-170 / listen3.py 42-50): for each incoming event,
try a non-blocking push; `except queue.Full: pass` drops the event and
the loop continues. -/
def processIncoming (maxsize : Nat) (q : List (List Nat)) (evts : List (List Nat)) :
    List (List Nat) :=
  evts.foldl
    (fun q e =>
      match put_nowait maxsize q e with
      | some q2 => q2
      | none => q)
    q

/- ---------- Setup connections and teardown (load_single.py 269-278, 395-414) ---------- -/

/-- The connect commands issued by the setup connections loop
(load_single.py 269-278 / load.py 321-329): one `connect` per document
entry, with both endpoints expanded. -/
def setupConnections (conns : List (String × String)) : List Cmd :=
  conns.map fun c => Cmd.connect (expand_port c.1) (expand_port c.2)

/-- The cleanup block (load_single.py 395-414): disconnect every
recorded connection in reverse order, then remove every loaded
instance in reverse order; each item is wrapped in `try/except`, so a
failure never stops the remaining items.  Returns the commands
issued. -/
def teardown (send : Cmd → Except CmdError Unit)
    (activeConnections : List (String × String)) (loadedIds : List Nat) : List Cmd :=
  runCaught send (activeConnections.reverse.map fun c => Cmd.disconnect c.1 c.2) ++
    runCaught send (loadedIds.reverse.map Cmd.remove)

/- ---------- Lock structure of the protocol clients ---------- -/

/-- The observable steps of one command lifecycle of a protocol client,
including lock operations. -/
inductive NetOp where
  | acquireLock
  | releaseLock
  | connectSock
  | sendData
  | shutdownWrite
  | recvData
  | closeSock
deriving DecidableEq, Repr

/-- The operation sequence of `send_modhost` (listen3.py 26-33): the
whole lifecycle — connect, write, close (the `with socket` exit) — runs
under the single global `_mod_lock`. -/
def send_modhost_ops : List NetOp :=
  [NetOp.acquireLock, NetOp.connectSock, NetOp.sendData, NetOp.closeSock,
    NetOp.releaseLock]

/-- The operation sequence of `send_cmd` (load_single.py 47-64 /
load.py 45-62 / modhost_cmd.py): connect, write, half-close, read until
EOF, close — with no lock acquisition anywhere. -/
def send_cmd_ops : List NetOp :=
  [NetOp.connectSock, NetOp.sendData, NetOp.shutdownWrite, NetOp.recvData,
    NetOp.closeSock]

/-- No lock operation occurs in the list. -/
def lockFree (ops : List NetOp) : Bool :=
  ops.all fun o => o ≠ NetOp.acquireLock && o ≠ NetOp.releaseLock

/-- The whole lifecycle sits inside one critical section: the first
step acquires the global lock, the last step releases it, and nothing
in between touches the lock. -/
def insideCriticalSection (ops : List NetOp) : Bool :=
  match ops with
  | NetOp.acquireLock :: rest =>
    match rest.getLast? with
    | some NetOp.releaseLock => lockFree rest.dropLast
    | _ => false
  | _ => false

/- ---------- Helper lemmas ---------- -/

/-- A `try/except`-wrapped per-item loop issues every command,
whatever the send outcomes are. -/
theorem runCaught_eq (send : Cmd → Except CmdError Unit) (cmds : List Cmd) :
    runCaught send cmds = cmds := by
  induction cmds with
  | nil => rfl
  | cons c rest ih => cases h : send c <;> simp [runCaught, h, ih]

/-- C5: the response parser and its two acceptance policies on the
three representative responses: `"resp 0\x00\x00"` parses to 0 and
passes the exact-zero policy; `"resp -101"` parses to -101 and is
rejected (with command and raw response attached) by both policies;
`"garbage"` is unparsable and is rejected by both policies. -/
theorem parse_resp_policies :
    parse_resp "resp 0\x00\x00" = some 0 ∧
    expect_zero "resp 0\x00\x00" "bypass 10" = Except.ok () ∧
    parse_resp "resp -101" = some (-101) ∧
    expect_zero "resp -101" "bypass 10" = Except.error ⟨"bypass 10", "resp -101"⟩ ∧
    expect_nonnegative "resp -101" "add 10 uri" = Except.error ⟨"add 10 uri", "resp -101"⟩ ∧
    parse_resp "garbage" = none ∧
    expect_zero "garbage" "bypass 10" = Except.error ⟨"bypass 10", "garbage"⟩ ∧
    expect_nonnegative "garbage" "add 10 uri" = Except.error ⟨"add 10 uri", "garbage"⟩ :=
  ⟨rfl, rfl, rfl, rfl, rfl, rfl, rfl, rfl⟩

/-- C7: port-shorthand expansion maps `"40:out_left"` to
`"effect_40:out_left"`, leaves `"system:midi_capture_1"` unchanged,
and in general leaves unchanged every port with no colon and every
port whose segment before the first colon is not all digits. -/
theorem expand_port_spec :
    expand_port "40:out_left" = "effect_40:out_left" ∧
    expand_port "system:midi_capture_1" = "system:midi_capture_1" ∧
    (∀ p : String, splitOnFirstColon p.data = none → expand_port p = p) ∧
    (∀ p : String, ∀ l r : List Char, splitOnFirstColon p.data = some (l, r) →
      pyIsDigit l = false → expand_port p = p) := by
  refine ⟨rfl, rfl, ?_, ?_⟩
  · intro p h
    simp [expand_port, h]
  · intro p l r h hd
    simp [expand_port, h, hd]

/-- Witness for C7 at a concrete non-numeric-prefixed port. -/
theorem expand_port_spec_witness : expand_port "mod-host:midi_in" = "mod-host:midi_in" :=
  expand_port_spec.2.2.2 "mod-host:midi_in" "mod-host".data "midi_in".data
    (by decide) (by decide)

/-- C4: teardown issues the disconnects of `[c1, c2, c3]` in the order
`[c3, c2, c1]` and then the removals of `[i1, i2, i3]` in the order
`[i3, i2, i1]`; and in general — for every send oracle, so per-item
failures never stop the remaining items — teardown issues exactly the
reversed connection list followed by the reversed instance list. -/
theorem teardown_reverse_order (send : Cmd → Except CmdError Unit)
    (c1 c2 c3 : String × String) (i1 i2 i3 : Nat) :
    teardown send [c1, c2, c3] [i1, i2, i3] =
      [Cmd.disconnect c3.1 c3.2, Cmd.disconnect c2.1 c2.2, Cmd.disconnect c1.1 c1.2,
        Cmd.remove i3, Cmd.remove i2, Cmd.remove i1] ∧
    (∀ conns : List (String × String), ∀ ids : List Nat,
      teardown send conns ids =
        conns.reverse.map (fun c => Cmd.disconnect c.1 c.2) ++
          ids.reverse.map Cmd.remove) := by
  constructor
  · simp [teardown, runCaught_eq]
  · intro conns ids
    simp [teardown, runCaught_eq]

/-- Counterexample for C8: the full command lifecycle of `send_cmd`
(load_single.py / load.py / modhost_cmd.py) — connect, write, read,
close — is not inside any critical section: the function acquires no
lock. -/
theorem send_cmd_not_in_critical_section :
    insideCriticalSection send_cmd_ops = false := rfl

/-- C8 (amended): only `listen3.py`'s `send_modhost` runs its full
command lifecycle inside the single global critical section
(`_mod_lock`); the `send_cmd` used by load_single.py and load.py
performs its whole lifecycle with no lock operation at all. -/
theorem client_lock_structure :
    insideCriticalSection send_modhost_ops = true ∧
    lockFree send_cmd_ops = true :=
  ⟨rfl, rfl⟩

/-- Counterexample for C9: the setup connections loop performs no
duplicate check, so a session document listing the same pair twice
makes setup issue two identical connect commands. -/
theorem duplicate_connect_cex :
    ¬ ((setupConnections [("a", "b"), ("a", "b")]).count (Cmd.connect "a" "b") ≤ 1) := by
  decide

/-- C9 (amended): setup issues exactly one connect command per document
connection entry; hence whenever the document's entries expand to
pairwise-distinct (src, dst) pairs, at most one connect command is
issued for any given pair. -/
theorem connect_once_per_distinct_pair (conns : List (String × String))
    (h : (conns.map fun c => (expand_port c.1, expand_port c.2)).Nodup)
    (s d : String) :
    (setupConnections conns).count (Cmd.connect s d) ≤ 1 := by
  have hmap : setupConnections conns =
      (conns.map fun c => (expand_port c.1, expand_port c.2)).map
        (fun p => Cmd.connect p.1 p.2) := by
    simp [setupConnections, List.map_map]
  have hinj : Function.Injective (fun p : String × String => Cmd.connect p.1 p.2) := by
    intro a b hab
    simp only [Cmd.connect.injEq] at hab
    exact Prod.ext hab.1 hab.2
  have hnd : (setupConnections conns).Nodup := by
    rw [hmap]
    exact h.map hinj
  exact List.nodup_iff_count_le_one.mp hnd (Cmd.connect s d)

/-- Witness for C9 (amended) on a concrete duplicate-free document. -/
theorem connect_once_per_distinct_pair_witness :
    (setupConnections [("40:out_left", "system:playback_1")]).count
      (Cmd.connect "effect_40:out_left" "system:playback_1") ≤ 1 :=
  connect_once_per_distinct_pair [("40:out_left", "system:playback_1")]
    (by decide) "effect_40:out_left" "system:playback_1"

/-- Length bound used by C6: the callback never grows the queue past
its capacity (and never past its starting length, if that was already
over capacity). -/
theorem processIncoming_length_le (maxsize : Nat) (evts : List (List Nat))
    (q : List (List Nat)) :
    (processIncoming maxsize q evts).length ≤ max q.length maxsize := by
  induction evts generalizing q with
  | nil => simp [processIncoming]
  | cons e rest ih =>
    by_cases hlt : q.length < maxsize
    · have : processIncoming maxsize q (e :: rest) =
          processIncoming maxsize (q ++ [e]) rest := by
        simp [processIncoming, put_nowait, hlt]
      rw [this]
      have h2 := ih (q ++ [e])
      have : (q ++ [e]).length ≤ maxsize := by
        simp
        omega
      omega
    · have : processIncoming maxsize q (e :: rest) = processIncoming maxsize q rest := by
        simp [processIncoming, put_nowait, hlt]
      rw [this]
      exact ih q

/-- C6: when the bounded incoming queue (capacity 2048) is already
full, the callback's push path drops every event and leaves the queue
unchanged (the `queue.Full` error is caught, the callback completes
normally); and for any queue state the queue never grows beyond the
capacity bound. -/
theorem callback_queue_full_drops (q : List (List Nat)) (evts : List (List Nat))
    (h : 2048 ≤ q.length) :
    processIncoming 2048 q evts = q ∧
    (∀ q2 : List (List Nat),
      (processIncoming 2048 q2 evts).length ≤ max q2.length 2048) := by
  constructor
  · induction evts with
    | nil => rfl
    | cons e rest ih =>
      have hfull : ¬ q.length < 2048 := by omega
      simpa [processIncoming, put_nowait, hfull] using ih
  · intro q2
    exact processIncoming_length_le 2048 evts q2

/-- Witness for C6 at a concrete full queue. -/
theorem callback_queue_full_drops_witness :
    processIncoming 2048 (List.replicate 2048 ([] : List Nat)) [[144, 60, 100]] =
      List.replicate 2048 ([] : List Nat) :=
  (callback_queue_full_drops (List.replicate 2048 []) [[144, 60, 100]]
    (le_of_eq (List.length_replicate 2048 []).symm)).1

/-- Characterization of host bypass state after the selection loop's
commands: every group member ends with bypass flag `inst ≠ x`, every
other instance is untouched. -/
theorem applyCmds_selectVariantCmds (s : Nat → Bool) (group : List Nat) (x j : Nat) :
    applyCmds s (selectVariantCmds group x) j =
      if j ∈ group then decide (j ≠ x) else s j := by
  induction group generalizing s with
  | nil => simp [selectVariantCmds, applyCmds]
  | cons a t ih =>
    have hstep : applyCmds s (selectVariantCmds (a :: t) x) j =
        applyCmds (applyCmd s (Cmd.bypass a (decide (a ≠ x)))) (selectVariantCmds t x) j :=
      rfl
    rw [hstep, ih]
    by_cases hjt : j ∈ t <;> by_cases hj : j = a <;>
      simp [hjt, hj, List.mem_cons, applyCmd]

/-- In a duplicate-free list containing `x`, filtering for `x` yields
exactly `[x]`. -/
theorem filter_eq_of_nodup (g : List Nat) (x : Nat) (hnd : g.Nodup) (hx : x ∈ g) :
    g.filter (fun i => decide (i = x)) = [x] := by
  induction g with
  | nil => cases hx
  | cons a t ih =>
    rcases List.nodup_cons.mp hnd with ⟨ha, hnt⟩
    by_cases hax : a = x
    · subst hax
      have hnil : t.filter (fun i => decide (i = a)) = [] := by
        apply List.filter_eq_nil_iff.mpr
        intro b hb
        simp only [decide_eq_true_eq]
        intro hba
        exact ha (hba ▸ hb)
      simp [List.filter_cons, hnil]
    · have hxt : x ∈ t := by
        rcases List.mem_cons.mp hx with h | h
        · exact absurd h.symm hax
        · exact h
      simp [List.filter_cons, hax, ih hnt hxt]

/-- C1: after a successful `selectVariant(group, x)` with `x` a member
of the duplicate-free group, the loop has issued `bypass inst 1` for
every member other than `x` and `bypass x 0` for `x` (whatever the
per-member send outcomes, the full command list is issued), and on the
host's bypass state exactly one member of the group is non-bypassed,
namely `x`. -/
theorem selectVariant_exclusivity (send : Cmd → Except CmdError Unit)
    (group : List Nat) (x : Nat) (s : Nat → Bool)
    (hnd : group.Nodup) (hx : x ∈ group) :
    selectVariant send group x = selectVariantCmds group x ∧
    (∀ i ∈ group, i ≠ x → Cmd.bypass i true ∈ selectVariantCmds group x) ∧
    Cmd.bypass x false ∈ selectVariantCmds group x ∧
    (∀ i ∈ group, applyCmds s (selectVariantCmds group x) i = decide (i ≠ x)) ∧
    group.filter (fun i => !(applyCmds s (selectVariantCmds group x) i)) = [x] := by
  refine ⟨runCaught_eq send _, ?_, ?_, ?_, ?_⟩
  · intro i hi hix
    refine List.mem_map.mpr ⟨i, hi, ?_⟩
    simp [hix]
  · exact List.mem_map.mpr ⟨x, hx, by simp⟩
  · intro i hi
    rw [applyCmds_selectVariantCmds s group x i, if_pos hi]
  · have hcong : group.filter (fun i => !(applyCmds s (selectVariantCmds group x) i)) =
        group.filter (fun i => decide (i = x)) := by
      apply List.filter_congr
      intro i hi
      rw [applyCmds_selectVariantCmds s group x i, if_pos hi]
      by_cases hix : i = x <;> simp [hix]
    rw [hcong]
    exact filter_eq_of_nodup group x hnd hx

/-- Witness for C1 on the spec's end-to-end scenario group. -/
theorem selectVariant_exclusivity_witness :
    Cmd.bypass 11 false ∈ selectVariantCmds [10, 11] 11 :=
  (selectVariant_exclusivity (fun _ => Except.ok ()) [10, 11] 11 (fun _ => false)
    (by decide) (by decide)).2.2.1

/-- A raw event that does not decode to a Program Change leaves the
router state unchanged and issues nothing. -/
theorem routerStep_nonPC (P : List Nat) (filt : Option Nat) (last : Option Nat)
    (e : List Nat) (h : isPCmsg e = false) :
    routerStep P filt last e = (last, []) := by
  unfold isPCmsg at h
  cases hd : decode_mido e with
  | none => simp [routerStep, hd]
  | some m =>
    cases m with
    | program_change ch p => rw [hd] at h; simp at h
    | other_msg => simp [routerStep, hd]

/-- A trace of non-Program-Change events leaves the router state
unchanged and issues nothing. -/
theorem runRouter_nonPC (P : List Nat) (filt : Option Nat) (l : Option Nat)
    (mid : List (List Nat)) (h : ∀ e ∈ mid, isPCmsg e = false) :
    runRouter P filt l mid = (l, []) := by
  induction mid with
  | nil => rfl
  | cons e rest ih =>
    have he := h e (List.mem_cons_self e rest)
    have hrest : ∀ e2 ∈ rest, isPCmsg e2 = false :=
      fun e2 h2 => h e2 (List.mem_cons_of_mem e h2)
    simp [runRouter, routerStep_nonPC P filt l e he, ih hrest]

/-- A raw event delivering program `p` through the filter makes the
router step behave as `routerPC` at `p`. -/
theorem routerStep_eventProg (P : List Nat) (filt : Option Nat) (last : Option Nat)
    (e : List Nat) (p : Nat) (h : eventProg filt e = some p) :
    routerStep P filt last e = routerPC P last p := by
  unfold eventProg at h
  cases hd : decode_mido e with
  | none => rw [hd] at h; simp at h
  | some m =>
    cases m with
    | other_msg => rw [hd] at h; simp at h
    | program_change ch prog =>
      rw [hd] at h
      cases filt with
      | none =>
        simp only [Option.some.injEq] at h
        simp [routerStep, hd, h]
      | some f =>
        by_cases hch : ch ≠ f
        · simp [hch] at h
        · simp only [hch, if_false, Option.some.injEq] at h
          simp [routerStep, hd, hch, h]

/-- Debounce: a Program Change equal to the remembered program is a
no-op. -/
theorem routerPC_same (P : List Nat) (p : Nat) :
    routerPC P (some p) p = (some p, []) := by
  simp [routerPC]

/-- After `routerPC` at program `p`, the remembered program is `p` —
whether or not `p` is a group member (the debounce branch can only be
taken when the remembered program already is `p`). -/
theorem routerPC_state (P : List Nat) (last : Option Nat) (p : Nat) :
    (routerPC P last p).1 = some p := by
  unfold routerPC
  by_cases h : some p = last
  · rw [if_pos h]
    exact h.symm
  · by_cases hm : p ∈ P <;> simp [h, hm]

/-- A debounced tail: non-Program-Change events followed by a Program
Change repeating the remembered program produce no commands and keep
the state. -/
theorem runRouter_debounced (P : List Nat) (filt : Option Nat) (p : Nat)
    (e2 : List Nat) (mid : List (List Nat)) :
    (∀ e ∈ mid, isPCmsg e = false) → eventProg filt e2 = some p →
      runRouter P filt (some p) (mid ++ [e2]) = (some p, []) := by
  induction mid with
  | nil =>
    intro _ h2
    have he2 : routerStep P filt (some p) e2 = (some p, []) := by
      rw [routerStep_eventProg P filt (some p) e2 p h2]
      exact routerPC_same P p
    simp [runRouter, he2]
  | cons m rest ih =>
    intro hmid h2
    have hm := hmid m (List.mem_cons_self m rest)
    have hrest : ∀ e ∈ rest, isPCmsg e = false :=
      fun e h => hmid e (List.mem_cons_of_mem m h)
    simp [runRouter, routerStep_nonPC P filt (some p) m hm, ih hrest h2]

/-- C2: a repeated identical program number — the second occurrence
consecutive with the first or separated only by non-Program-Change or
undecodable events — produces at most one selection: the whole segment
issues exactly the commands of its first event, the repeat being
discarded by the debounce with no host command. -/
theorem debounce_at_most_one_selection (P : List Nat) (filt : Option Nat)
    (s0 : Option Nat) (e1 e2 : List Nat) (mid : List (List Nat)) (p : Nat)
    (h1 : eventProg filt e1 = some p)
    (hmid : ∀ e ∈ mid, isPCmsg e = false)
    (h2 : eventProg filt e2 = some p) :
    runRouter P filt s0 (e1 :: (mid ++ [e2])) = routerStep P filt s0 e1 := by
  have hs1 : (routerStep P filt s0 e1).1 = some p := by
    rw [routerStep_eventProg P filt s0 e1 p h1]
    exact routerPC_state P s0 p
  have happ := runRouter_debounced P filt p e2 mid hmid h2
  simp only [runRouter, hs1, happ]
  rw [List.append_nil]
  exact Prod.ext hs1.symm rfl

/-- Witness for C2: the same Program Change 11 twice around a note-on,
on the spec's end-to-end scenario group. -/
theorem debounce_at_most_one_selection_witness :
    runRouter [10, 11] none none ([193, 11] :: ([[144, 60, 100]] ++ [[193, 11]])) =
      routerStep [10, 11] none none [193, 11] :=
  debounce_at_most_one_selection [10, 11] none none [193, 11] [193, 11]
    [[144, 60, 100]] 11 (by decide) (by decide) (by decide)

/-- Every command produced by the selection loop is a bypass of a group
member. -/
theorem selectVariantCmds_mem (group : List Nat) (x : Nat) (c : Cmd)
    (h : c ∈ selectVariantCmds group x) : ∃ i b, i ∈ group ∧ c = Cmd.bypass i b := by
  rcases List.mem_map.mp h with ⟨i, hi, rfl⟩
  exact ⟨i, _, hi, rfl⟩

/-- Every command produced by `routerPC` is a bypass of a group
member. -/
theorem routerPC_cmds_mem (P : List Nat) (last : Option Nat) (prog : Nat) (c : Cmd)
    (h : c ∈ (routerPC P last prog).2) : ∃ i b, i ∈ P ∧ c = Cmd.bypass i b := by
  by_cases h1 : some prog = last
  · simp [routerPC, h1] at h
  · by_cases h2 : prog ∈ P
    · simp only [routerPC, if_neg h1, if_pos h2] at h
      exact selectVariantCmds_mem P prog c h
    · simp [routerPC, h1, h2] at h

/-- Every command produced by one router iteration is a bypass of a
group member. -/
theorem routerStep_cmds_mem (P : List Nat) (filt : Option Nat) (last : Option Nat)
    (e : List Nat) (c : Cmd) (h : c ∈ (routerStep P filt last e).2) :
    ∃ i b, i ∈ P ∧ c = Cmd.bypass i b := by
  unfold routerStep at h
  cases hd : decode_mido e with
  | none => rw [hd] at h; simp at h
  | some m =>
    rw [hd] at h
    cases m with
    | other_msg => simp at h
    | program_change ch prog =>
      cases filt with
      | none => exact routerPC_cmds_mem P last prog c h
      | some f =>
        by_cases hch : ch ≠ f
        · simp [hch] at h
        · simp only [hch, if_false] at h
          exact routerPC_cmds_mem P last prog c h

/-- Every command produced along a whole router trace is a bypass of a
group member. -/
theorem runRouter_cmds_mem (P : List Nat) (filt : Option Nat) (s0 : Option Nat)
    (evts : List (List Nat)) (c : Cmd) (h : c ∈ (runRouter P filt s0 evts).2) :
    ∃ i b, i ∈ P ∧ c = Cmd.bypass i b := by
  induction evts generalizing s0 with
  | nil => simp [runRouter] at h
  | cons e rest ih =>
    simp only [runRouter, List.mem_append] at h
    rcases h with h1 | h2
    · exact routerStep_cmds_mem P filt s0 e c h1
    · exact ih _ h2

/-- C3: over any trace, the router only ever issues bypass commands for
members of the known group; and a decoded program number outside the
group produces no host command at all. -/
theorem router_no_foreign_bypass (P : List Nat) (filt : Option Nat) (s0 : Option Nat)
    (evts : List (List Nat)) :
    (∀ c ∈ (runRouter P filt s0 evts).2, ∃ i b, i ∈ P ∧ c = Cmd.bypass i b) ∧
    (∀ last : Option Nat, ∀ prog : Nat, prog ∉ P → (routerPC P last prog).2 = []) := by
  constructor
  · intro c hc
    exact runRouter_cmds_mem P filt s0 evts c hc
  · intro last prog hnp
    by_cases h1 : some prog = last
    · simp [routerPC, h1]
    · simp [routerPC, h1, hnp]

/-- Witness for C3 at a concrete one-event trace. -/
theorem router_no_foreign_bypass_witness :
    ∃ i b, i ∈ [5] ∧ Cmd.bypass 5 false = Cmd.bypass i b :=
  (router_no_foreign_bypass [5] none none [[197, 5]]).1 (Cmd.bypass 5 false) (by decide)

/-- C10: a fresh program number updates `last_prog` before the
membership check: an unrecognized program still becomes the remembered
program (with no command issued), so its immediate repeat is debounced,
and a recognized program arriving right after a different
unrecognized one always triggers selection. -/
theorem lastprog_updates_before_membership (P : List Nat) (filt : Option Nat)
    (last : Option Nat) (e1 e2 : List Nat) (p q : Nat)
    (h1 : eventProg filt e1 = some p) (hp : p ∉ P) (hne : some p ≠ last)
    (h2 : eventProg filt e2 = some q) (hq : q ∈ P) (hqp : q ≠ p) :
    routerStep P filt last e1 = (some p, []) ∧
    routerStep P filt (some p) e1 = (some p, []) ∧
    routerStep P filt (some p) e2 = (some q, selectVariantCmds P q) := by
  refine ⟨?_, ?_, ?_⟩
  · rw [routerStep_eventProg P filt last e1 p h1]
    simp [routerPC, hne, hp]
  · rw [routerStep_eventProg P filt (some p) e1 p h1]
    exact routerPC_same P p
  · rw [routerStep_eventProg P filt (some p) e2 q h2]
    have hne2 : ¬ (some q = some p) := by simpa using hqp
    simp [routerPC, hne2, hq]

/-- Witness for C10: unrecognized program 5, then recognized program
10. -/
theorem lastprog_updates_before_membership_witness :
    routerStep [10] none none [192, 5] = (some 5, []) ∧
    routerStep [10] none (some 5) [192, 5] = (some 5, []) ∧
    routerStep [10] none (some 5) [192, 10] = (some 10, selectVariantCmds [10] 10) :=
  lastprog_updates_before_membership [10] none none [192, 5] [192, 10] 5 10
    (by decide) (by decide) (by decide) (by decide) (by decide) (by decide)

end Router
